import Mathlib

/-!
# Verification of the WebScrapping_FetchLinks scraper

A shallow embedding of `src/web_scrapper.py` (class `WebScraper`): the parsed
document tree (the BeautifulSoup Document Model), the nine extractors, the
orchestration (`scrape_all`, `main`), and the reporter (`print_summary`,
`save_to_json`), together with theorems settling the specification's claims.

Machine conventions of the embedding:
* the parsed tree is `Node` (text node or element with tag, attributes,
  children); a soup object is a `Doc`, the list of top-level nodes;
* BeautifulSoup traversal (`find_all`, `find`, `get_text`) is preorder
  (document order) over the tree;
* Python dicts are insertion-ordered association lists with assignment
  semantics (`dictSet` updates an existing key in place, else appends);
* `None`-or-string values are `Option String`; Python truthiness of such a
  value (`None` and `""` falsy) is `pyTruthy`;
* console output is modelled as the list of strings passed to `print`, in
  order; the written JSON file is modelled as a `Json` document (the value
  `json.dump` serializes), since the byte rendering is the json library's;
* text nodes are taken to use LF line endings, so Python `str.splitlines`
  is splitting on `"\n"`, and `str.strip` is `pyStrip` (ASCII whitespace).
-/

/-- A node of the Document Model: a text node, or an element with a tag
name, attributes and children (`src/web_scrapper.py` line 36 builds it via
`BeautifulSoup(response.content, 'html.parser')`). -/
inductive Node where
  | text : String → Node
  | elem : String → List (String × String) → List Node → Node

/-- A parsed document (soup): the list of top-level nodes. -/
abbrev Doc := List Node

/-- Children of a node (a text node has none). -/
def childrenOf : Node → List Node
  | .text _ => []
  | .elem _ _ children => children

/-- Tag name of an element node; `""` for a text node (never a real tag). -/
def tagName : Node → String
  | .text _ => ""
  | .elem name _ _ => name

/-- Attribute lookup, `tag.get(key)` / `tag[key]`: first binding wins,
absent attribute is `none`. -/
def getAttr (n : Node) (key : String) : Option String :=
  match n with
  | .text _ => none
  | .elem _ attrs _ =>
    match attrs.find? (fun p => p.1 == key) with
    | some p => some p.2
    | none => none

/-! ### Computable string primitives

The Python string operations the scraper relies on (`strip`, `split`,
`splitlines`, `join`, `startswith`, `lower`), implemented over the
character list so that every definition evaluates on concrete inputs. -/

/-- Python `str.strip()`: leading and trailing whitespace removed. -/
def pyStrip (s : String) : String :=
  String.mk (((s.data.dropWhile Char.isWhitespace).reverse.dropWhile
    Char.isWhitespace).reverse)

/-- Split a character list at each non-overlapping occurrence of the
non-empty separator (leftmost-first). Structural recursion on a character
budget so that the definition evaluates inside the kernel: each step
consumes at least one input character, so a budget of the input length is
never exhausted. -/
def splitOnAux (sep : List Char) : Nat → List Char → List Char → List (List Char)
  | _, [], acc => [acc.reverse]
  | 0, l, acc => [acc.reverse ++ l]
  | fuel + 1, c :: rest, acc =>
    if sep.isPrefixOf (c :: rest) then
      acc.reverse :: splitOnAux sep fuel ((c :: rest).drop sep.length) []
    else
      splitOnAux sep fuel rest (c :: acc)

/-- Python `s.split(sep)` for a non-empty separator (also Lean's
`String.splitOn` semantics); an empty separator yields `[s]`. -/
def pySplit (sep s : String) : List String :=
  match sep.data with
  | [] => [s]
  | s1 :: srest => (splitOnAux (s1 :: srest) s.data.length s.data []).map String.mk

/-- Python `sep.join(parts)`. -/
def joinSep (sep : String) : List String → String
  | [] => ""
  | [x] => x
  | x :: y :: rest => x ++ sep ++ joinSep sep (y :: rest)

/-- Python `s.startswith(p)`. -/
def strStartsWith (s p : String) : Bool :=
  p.data.isPrefixOf s.data

/-- Python `s.lower()`. -/
def strLower (s : String) : String :=
  String.mk (s.data.map Char.toLower)

mutual

/-- The element nodes of a subtree in document (preorder) order, the root
included when it is an element: the search space of `find_all` on the soup. -/
def nodeElems : Node → List Node
  | .text _ => []
  | .elem name attrs children => .elem name attrs children :: nodesElems children

/-- `nodeElems` over a list of sibling subtrees, in order. -/
def nodesElems : List Node → List Node
  | [] => []
  | n :: rest => nodeElems n ++ nodesElems rest

end

mutual

/-- The text-node strings of a subtree in document order
(BeautifulSoup's `strings` of the subtree). -/
def nodeTexts : Node → List String
  | .text s => [s]
  | .elem _ _ children => nodesTexts children

/-- `nodeTexts` over a list of sibling subtrees, in order. -/
def nodesTexts : List Node → List String
  | [] => []
  | n :: rest => nodeTexts n ++ nodesTexts rest

end

/-- `tag.get_text()`: concatenation of all text-node strings of the subtree
(default separator is the empty string). -/
def getText (n : Node) : String :=
  String.join (nodeTexts n)

/-- `get_text()` over the whole soup. -/
def getTextDoc (d : Doc) : String :=
  String.join (nodesTexts d)

/-- `tag.get_text(strip=True)`: each text-node string stripped, strings that
strip to empty skipped, the rest concatenated. -/
def getTextStrip (n : Node) : String :=
  String.join (((nodeTexts n).map pyStrip).filter (fun s => s ≠ ""))

/-- `soup.find_all(tags)`: every element of the document whose tag is among
`tags`, in document order. -/
def findAllDoc (tags : List String) (d : Doc) : List Node :=
  (nodesElems d).filter (fun n => tags.contains (tagName n))

/-- `tag.find_all(tags)`: every matching element strictly below `n`
(descendants only, `n` itself excluded), in document order. -/
def findAllIn (tags : List String) (n : Node) : List Node :=
  findAllDoc tags (childrenOf n)

/-- `tag.find(t)`: the first matching descendant, if any. -/
def findIn (tag : String) (n : Node) : Option Node :=
  (findAllIn [tag] n).head?

/-- `soup.find(t)`: the first matching element of the document, if any. -/
def findDoc (tag : String) (d : Doc) : Option Node :=
  (findAllDoc [tag] d).head?

/-- `tag.find_all(t, recursive=False)`: matching direct children only. -/
def findDirect (tag : String) (n : Node) : List Node :=
  (childrenOf n).filter (fun c => tagName c == tag)

mutual

/-- In-place `decompose()` of one subtree for `extract_text_content`
(`src/web_scrapper.py` lines 49-50): a `script` or `style` element is removed
with its whole subtree, any other node survives with its children filtered. -/
def stripNode : Node → Option Node
  | .text s => some (.text s)
  | .elem name attrs children =>
    if name == "script" || name == "style" then none
    else some (.elem name attrs (stripNodes children))

/-- `stripNode` over sibling subtrees, dropping removed ones. -/
def stripNodes : List Node → List Node
  | [] => []
  | n :: rest =>
    match stripNode n with
    | some m => m :: stripNodes rest
    | none => stripNodes rest

end

/-- The soup after `for script in self.soup(["script", "style"]):
script.decompose()`. -/
def stripScriptStyleDoc (d : Doc) : Doc :=
  stripNodes d

mutual

/-- Whether a subtree contains a `script` or `style` element. -/
def hasScriptStyle : Node → Bool
  | .text _ => false
  | .elem name _ children =>
    name == "script" || name == "style" || hasScriptStyleList children

/-- `hasScriptStyle` over sibling subtrees. -/
def hasScriptStyleList : List Node → Bool
  | [] => false
  | n :: rest => hasScriptStyle n || hasScriptStyleList rest

end

/-! ## Python dict and truthiness -/

/-- Python dict lookup `m.get(k)`: value of the first binding of `k`. -/
def dictGet {α : Type} (m : List (String × α)) (k : String) : Option α :=
  match m with
  | [] => none
  | (k', v) :: rest => if k' = k then some v else dictGet rest k

/-- `m.get(k, dflt)`. -/
def dictGetD {α : Type} (m : List (String × α)) (k : String) (dflt : α) : α :=
  (dictGet m k).getD dflt

/-- Python dict assignment `m[k] = v`: overwrite the existing binding in
place, else append (insertion order preserved). -/
def dictSet {α : Type} (m : List (String × α)) (k : String) (v : α) : List (String × α) :=
  match m with
  | [] => [(k, v)]
  | (k', v') :: rest => if k' = k then (k', v) :: rest else (k', v') :: dictSet rest k v

/-- Python truthiness of a string-or-`None` value: `None` and `""` are
falsy, every other string is truthy. -/
def pyTruthy : Option String → Bool
  | none => false
  | some s => s ≠ ""

/-- Python `a or b` on string-or-`None` values. -/
def pyOrStr (a b : Option String) : Option String :=
  if pyTruthy a then a else b

/-! ## urllib.parse model

Modelled from the documented behaviour of CPython's `urllib.parse`
(`urlparse`, `urljoin`), which the spec pins to RFC 3986 relative-resolution
semantics; the legacy `;params` component is omitted (no claim touches it). -/

/-- The split components of a URL: scheme (lowercased, `""` if absent),
network location (`none` if no `//`), path, query, fragment. -/
structure UrlParts where
  scheme : String
  netloc : Option String
  path : String
  query : Option String
  fragment : Option String

/-- Split `s` at the first occurrence of `sep`: the prefix, and the rest if
`sep` occurs. -/
def splitOnce (sep s : String) : String × Option String :=
  match pySplit sep s with
  | [] => (s, none)
  | [x] => (x, none)
  | x :: rest => (x, some (joinSep sep rest))

/-- A valid URL scheme: a letter followed by letters, digits, `+`, `-`, `.`. -/
def validScheme (s : String) : Bool :=
  match s.data with
  | [] => false
  | c :: rest => c.isAlpha && rest.all (fun ch => ch.isAlphanum || ch == '+' || ch == '-' || ch == '.')

/-- Split off the scheme, if the text before the first `:` is a valid one. -/
def splitScheme (s : String) : String × String :=
  match pySplit ":" s with
  | [] => ("", s)
  | [_] => ("", s)
  | x :: rest => if validScheme x then (strLower x, joinSep ":" rest) else ("", s)

/-- Split off the network location after a leading `//` (up to the next
`/`, `?` or `#`). -/
def splitNetloc (s : String) : Option String × String :=
  if strStartsWith s "//" then
    let rest := s.data.drop 2
    let netloc := rest.takeWhile (fun c => c ≠ '/' && c ≠ '?' && c ≠ '#')
    (some (String.mk netloc), String.mk (rest.drop netloc.length))
  else (none, s)

/-- `urllib.parse.urlparse` (fragment first, then scheme, netloc, query). -/
def urlparseParts (s : String) : UrlParts :=
  let (s1, frag) := splitOnce "#" s
  let (scheme, s2) := splitScheme s1
  let (netloc, s3) := splitNetloc s2
  let (path, query) := splitOnce "?" s3
  ⟨scheme, netloc, path, query, frag⟩

/-- `urllib.parse.urlunsplit`: reassemble the components. -/
def unparseParts (u : UrlParts) : String :=
  (if u.scheme = "" then "" else u.scheme ++ ":")
    ++ (match u.netloc with | some n => "//" ++ n | none => "")
    ++ u.path
    ++ (match u.query with | some q => "?" ++ q | none => "")
    ++ (match u.fragment with | some f => "#" ++ f | none => "")

/-- Schemes for which relative resolution against a base is performed. -/
def usesRelative : List String :=
  ["", "ftp", "http", "gopher", "nntp", "imap", "wais", "file", "https",
   "shttp", "mms", "prospero", "rtsp", "rtspu", "sftp", "svn", "svn+ssh",
   "ws", "wss"]

/-- Schemes whose URLs carry a network location. -/
def usesNetloc : List String :=
  ["", "ftp", "http", "gopher", "nntp", "telnet", "imap", "wais", "file",
   "mms", "https", "shttp", "snews", "prospero", "rtsp", "rtspu", "rsync",
   "svn", "svn+ssh", "sftp", "nfs", "git", "git+ssh", "ws", "wss", "itms-services"]

/-- Keep the last element, filter empty strings from the ones before it
(CPython's `segments[1:-1] = filter(None, segments[1:-1])`, applied to the
tail of the segment list). -/
def keepLastFilter : List String → List String
  | [] => []
  | [x] => [x]
  | x :: y :: rest =>
    if x = "" then keepLastFilter (y :: rest) else x :: keepLastFilter (y :: rest)

/-- The `.`/`..` resolution loop over path segments: `..` pops the last
resolved segment (no-op when empty), `.` is skipped, others are appended. -/
def resolveSegs (segments : List String) : List String :=
  segments.foldl
    (fun acc seg =>
      if seg = ".." then acc.dropLast
      else if seg = "." then acc
      else acc ++ [seg]) []

/-- `urllib.parse.urljoin base url`: resolve `url` against `base`.
Empty `base` or `url` short-circuits; a different scheme or one outside
`usesRelative` returns `url` unchanged; otherwise netloc, path (with
segment merging and `.`/`..` resolution), query and fragment are combined
per RFC 3986. -/
def urljoin (base url : String) : String :=
  if base = "" then url
  else if url = "" then base
  else
    let b := urlparseParts base
    let r0 := urlparseParts url
    let scheme := if r0.scheme = "" then b.scheme else r0.scheme
    if scheme ≠ b.scheme || !(usesRelative.contains scheme) then url
    else
      let netloc0 := if usesNetloc.contains scheme then
          (if r0.netloc.isSome then r0.netloc else b.netloc)
        else r0.netloc
      if usesNetloc.contains scheme && r0.netloc.isSome then
        unparseParts ⟨scheme, r0.netloc, r0.path, r0.query, r0.fragment⟩
      else if r0.path = "" then
        unparseParts ⟨scheme, netloc0, b.path,
          (if r0.query.isSome then r0.query else b.query), r0.fragment⟩
      else
        let baseParts0 := pySplit "/" b.path
        let baseParts := if baseParts0.getLast? ≠ some "" then baseParts0.dropLast else baseParts0
        let segments :=
          if strStartsWith r0.path "/" then pySplit "/" r0.path
          else
            match baseParts ++ pySplit "/" r0.path with
            | [] => []
            | first :: rest => first :: keepLastFilter rest
        let resolved0 := resolveSegs segments
        let resolved :=
          if segments.getLast? = some "." || segments.getLast? = some ".." then
            resolved0 ++ [""]
          else resolved0
        let joined := joinSep "/" resolved
        unparseParts ⟨scheme, netloc0, (if joined = "" then "/" else joined),
          r0.query, r0.fragment⟩

/-- `urlparse(url).netloc` as used for the default output filename. -/
def netlocOf (url : String) : String :=
  ((urlparseParts url).netloc).getD ""

/-! ## The nine extractors (`src/web_scrapper.py` lines 43-205)

Each extractor is written against the `Doc` the scraper holds; the
`if not self.soup` guards (the unfetched state) are carried by the
orchestration model, which only reaches the extractors with a parsed
document in hand. -/

/-- The whitespace clean-up of `extract_text_content` (lines 53-56): strip
each line, split each stripped line at every double-space into phrases,
strip the phrases, keep the truthy chunks, join with `"\n"`. -/
def normalizeText (text : String) : String :=
  let lines := (pySplit "\n" text).map pyStrip
  let chunks := lines.flatMap (fun line => (pySplit "  " line).map pyStrip)
  joinSep "\n" (chunks.filter (fun c => c ≠ ""))

/-- `WebScraper.extract_text_content` (lines 43-57). The `decompose()` loop
mutates the shared soup, so the result is the extracted text together with
the document the scraper holds afterwards. -/
def extract_text_content (d : Doc) : String × Doc :=
  let d' := stripScriptStyleDoc d
  (normalizeText (getTextDoc d'), d')

/-- One iteration of the `extract_headings` loop (lines 65-69): the dict
entry contributed for one level tag — nothing when the page has no heading
of that level. -/
def headingEntry (d : Doc) (tag : String) : List (String × List String) :=
  let headingList := (findAllDoc [tag] d).map getTextStrip
  if headingList = [] then [] else [(tag, headingList)]

/-- `WebScraper.extract_headings` (lines 59-71): the `for level in
range(1, 7)` loop unrolled; the six tags are distinct, so the dict built by
the loop is the concatenation of the per-level entries. -/
def extract_headings (d : Doc) : List (String × List String) :=
  headingEntry d "h1" ++ headingEntry d "h2" ++ headingEntry d "h3"
    ++ headingEntry d "h4" ++ headingEntry d "h5" ++ headingEntry d "h6"

/-- One link record (lines 84-88). -/
structure Link where
  text : String
  url : String
  relative_url : String
deriving DecidableEq, Repr

/-- `WebScraper.extract_links` (lines 73-90): anchors carrying an `href`
attribute, each with its trimmed text, the absolute URL joined against the
page URL, and the raw `href`. -/
def extract_links (pageUrl : String) (d : Doc) : List Link :=
  ((findAllDoc ["a"] d).filter (fun a => (getAttr a "href").isSome)).map
    (fun a =>
      let href := (getAttr a "href").getD ""
      ⟨getTextStrip a, urljoin pageUrl href, href⟩)

/-- One table record (lines 99-103): the 0-based enumeration index
(serialized as `table_index`), the header texts, the row cell texts. -/
structure TableData where
  table_index : Nat
  headers : List String
  rows : List (List String)
deriving DecidableEq, Repr

/-- The body of the `extract_tables` loop (lines 99-122) for one
enumerated table element. -/
def tableOf (p : Nat × Node) : TableData :=
  let idx := p.1
  let table := p.2
  let headers :=
    match findIn "thead" table with
    | some thead => (findAllIn ["th"] thead).map getTextStrip
    | none => []
  let rowsContainer :=
    match findIn "tbody" table with
    | some tbody => tbody
    | none => table
  let rows :=
    ((findAllIn ["tr"] rowsContainer).map
      (fun tr => (findAllIn ["td", "th"] tr).map getTextStrip)).filter
      (fun row => row ≠ [])
  ⟨idx, headers, rows⟩

/-- `WebScraper.extract_tables` (lines 92-124): every table element of the
document, enumerated in document order. -/
def extract_tables (d : Doc) : List TableData :=
  ((findAllDoc ["table"] d).enum).map tableOf

/-- Key resolution for one meta element (lines 141-144): `name` falling
back to `property` by truthiness, both the resolved name and the `content`
attribute required truthy, key prefixed with `meta_`. -/
def resolveMeta (m : Node) : Option (String × String) :=
  let name := pyOrStr (getAttr m "name") (getAttr m "property")
  let content := getAttr m "content"
  if pyTruthy name && pyTruthy content then
    some ("meta_" ++ name.getD "", content.getD "")
  else none

/-- `WebScraper.extract_metadata` (lines 126-146): the `title` entry from
the first title element (a found Tag is truthy), then one dict assignment
per meta element that resolves. -/
def extract_metadata (d : Doc) : List (String × String) :=
  let md : List (String × String) :=
    match findDoc "title" d with
    | some t => dictSet [] "title" (getTextStrip t)
    | none => []
  (findAllDoc ["meta"] d).foldl
    (fun acc m =>
      match resolveMeta m with
      | some p => dictSet acc p.1 p.2
      | none => acc) md

/-- One code-block record (lines 157-161): shared 0-based index over the
combined `pre`/`code` sequence, the tag name (serialized as `type`), the
raw untrimmed text. -/
structure CodeBlock where
  index : Nat
  kind : String
  content : String
deriving DecidableEq, Repr

/-- `WebScraper.extract_code_blocks` (lines 148-163): `pre` and `code`
elements in one combined document-order enumeration. -/
def extract_code_blocks (d : Doc) : List CodeBlock :=
  ((findAllDoc ["pre", "code"] d).enum).map
    (fun p => ⟨p.1, tagName p.2, getText p.2⟩)

/-- `WebScraper.extract_paragraphs` (lines 165-170): the trimmed text of
every paragraph element, empties kept. -/
def extract_paragraphs (d : Doc) : List String :=
  (findAllDoc ["p"] d).map getTextStrip

/-- The two list categories (line 177): dict with fixed keys `ul`, `ol`. -/
structure ListsData where
  ul : List (List String)
  ol : List (List String)
deriving DecidableEq, Repr

/-- `WebScraper.extract_lists` (lines 172-189): for each list element, the
trimmed texts of its direct `li` children; a list with zero direct items is
dropped. -/
def extract_lists (d : Doc) : ListsData :=
  let collect := fun tag =>
    (((findAllDoc [tag] d).map
      (fun l => (findDirect "li" l).map getTextStrip)).filter
      (fun items => items ≠ []))
  ⟨collect "ul", collect "ol"⟩

/-- One image record (lines 198-202). -/
structure Image where
  alt : String
  src : String
  title : String
deriving DecidableEq, Repr

/-- The record built for one image element (lines 198-202): `alt` and
`title` default to `""` when absent; the `src` field is the URL-join of the
page URL with the `src` attribute, which defaults to `""` when absent. -/
def imageOf (pageUrl : String) (img : Node) : Image :=
  ⟨(getAttr img "alt").getD "",
   urljoin pageUrl ((getAttr img "src").getD ""),
   (getAttr img "title").getD ""⟩

/-- `WebScraper.extract_images` (lines 191-205): one record per image
element, document order. -/
def extract_images (pageUrl : String) (d : Doc) : List Image :=
  (findAllDoc ["img"] d).map (imageOf pageUrl)

/-! ## Orchestration and reporting (`src/web_scrapper.py` lines 207-292) -/

/-- The aggregate record assembled by `scrape_all` (lines 214-225); field
names follow the dict keys. -/
structure ScrapeResult where
  url : String
  metadata : List (String × String)
  headings : List (String × List String)
  paragraphs : List String
  links : List Link
  images : List Image
  tables : List TableData
  lists : ListsData
  code_blocks : List CodeBlock
  full_text : String
deriving DecidableEq, Repr

/-- Why the fetch step failed (`requests.exceptions.RequestException`
subclasses observed in `fetch_page`, lines 32-41): a timeout, a transport
error, or `raise_for_status` on a non-success HTTP status. -/
inductive FetchError where
  | timeout : FetchError
  | transport : FetchError
  | httpStatus : Nat → FetchError
deriving DecidableEq, Repr

/-- Outcome of `fetch_page`: a parsed Document Model on success, the error
kind otherwise. -/
inductive FetchOutcome where
  | success : Doc → FetchOutcome
  | failure : FetchError → FetchOutcome

/-- `WebScraper.scrape_all` (lines 207-227): `None` when the fetch failed,
otherwise the dict literal assembled by running the extractors in source
order — the eight read-only extractors against the freshly parsed tree,
`extract_text_content` evaluated last (its script/style `decompose`
mutation therefore unseen by the others). -/
def scrape_all (url : String) (fetched : FetchOutcome) : Option ScrapeResult :=
  match fetched with
  | .failure _ => none
  | .success d =>
    some
      { url := url
        metadata := extract_metadata d
        headings := extract_headings d
        paragraphs := extract_paragraphs d
        links := extract_links url d
        images := extract_images url d
        tables := extract_tables d
        lists := extract_lists d
        code_blocks := extract_code_blocks d
        full_text := (extract_text_content d).1 }

/-- A JSON document, the value `json.dump` serializes (object member order
is Python dict insertion order). -/
inductive Json where
  | str : String → Json
  | num : Nat → Json
  | arr : List Json → Json
  | obj : List (String × Json) → Json

/-- `save_to_json` (lines 229-241): the default filename is
`<netloc>_scraped_data.json` unless an explicit one is given. -/
def outputFilename (url : String) (explicit : Option String) : String :=
  match explicit with
  | some f => f
  | none => netlocOf url ++ "_scraped_data.json"

/-- Encode a string list. -/
def strListToJson (l : List String) : Json :=
  .arr (l.map .str)

/-- Encode one link record (dict key order of lines 84-88). -/
def linkToJson (l : Link) : Json :=
  .obj [("text", .str l.text), ("url", .str l.url), ("relative_url", .str l.relative_url)]

/-- Encode one image record (dict key order of lines 198-202). -/
def imageToJson (i : Image) : Json :=
  .obj [("alt", .str i.alt), ("src", .str i.src), ("title", .str i.title)]

/-- Encode one table record (dict key order of lines 99-103). -/
def tableToJson (t : TableData) : Json :=
  .obj [("table_index", .num t.table_index),
        ("headers", strListToJson t.headers),
        ("rows", .arr (t.rows.map strListToJson))]

/-- Encode one code-block record (dict key order of lines 157-161). -/
def codeBlockToJson (c : CodeBlock) : Json :=
  .obj [("index", .num c.index), ("type", .str c.kind), ("content", .str c.content)]

/-- Encode the lists dict (key order of line 177). -/
def listsToJson (l : ListsData) : Json :=
  .obj [("ul", .arr (l.ul.map strListToJson)), ("ol", .arr (l.ol.map strListToJson))]

/-- The JSON document `save_to_json` writes for a ScrapeResult: the
`all_data` dict of lines 214-225 with each container encoded
shape-for-shape. -/
def resultToJson (r : ScrapeResult) : Json :=
  .obj
    [("url", .str r.url),
     ("metadata", .obj (r.metadata.map (fun p => (p.1, .str p.2)))),
     ("headings", .obj (r.headings.map (fun p => (p.1, strListToJson p.2)))),
     ("paragraphs", strListToJson r.paragraphs),
     ("links", .arr (r.links.map linkToJson)),
     ("images", .arr (r.images.map imageToJson)),
     ("tables", .arr (r.tables.map tableToJson)),
     ("lists", listsToJson r.lists),
     ("code_blocks", .arr (r.code_blocks.map codeBlockToJson)),
     ("full_text", .str r.full_text)]

/-! ## Parsing the written file back (for the round-trip property) -/

/-- Read a JSON string. -/
def asStr : Json → Option String
  | .str s => some s
  | _ => none

/-- Read a JSON number. -/
def asNum : Json → Option Nat
  | .num n => some n
  | _ => none

/-- Read a JSON array. -/
def asArr : Json → Option (List Json)
  | .arr l => some l
  | _ => none

/-- Read a JSON object. -/
def asObj : Json → Option (List (String × Json))
  | .obj o => some o
  | _ => none

/-- Decode every element of a JSON array, failing if any element fails. -/
def decodeList {α : Type} (dec : Json → Option α) : List Json → Option (List α)
  | [] => some []
  | j :: rest =>
    match dec j with
    | some a => (decodeList dec rest).map (a :: ·)
    | none => none

/-- Decode every member value of a JSON object, keeping keys and order. -/
def decodePairs {α : Type} (dec : Json → Option α) :
    List (String × Json) → Option (List (String × α))
  | [] => some []
  | (k, j) :: rest =>
    match dec j with
    | some v => (decodePairs dec rest).map ((k, v) :: ·)
    | none => none

/-- Decode an array of strings. -/
def decodeStrList (j : Json) : Option (List String) :=
  asArr j >>= decodeList asStr

/-- Decode one link record. -/
def linkOfJson (j : Json) : Option Link :=
  match j with
  | .obj o =>
    match dictGet o "text" >>= asStr, dictGet o "url" >>= asStr,
        dictGet o "relative_url" >>= asStr with
    | some t, some u, some r => some ⟨t, u, r⟩
    | _, _, _ => none
  | _ => none

/-- Decode one image record. -/
def imageOfJson (j : Json) : Option Image :=
  match j with
  | .obj o =>
    match dictGet o "alt" >>= asStr, dictGet o "src" >>= asStr,
        dictGet o "title" >>= asStr with
    | some a, some s, some t => some ⟨a, s, t⟩
    | _, _, _ => none
  | _ => none

/-- Decode one table record. -/
def tableOfJson (j : Json) : Option TableData :=
  match j with
  | .obj o =>
    match dictGet o "table_index" >>= asNum, dictGet o "headers" >>= decodeStrList,
        dictGet o "rows" >>= asArr >>= decodeList decodeStrList with
    | some i, some h, some r => some ⟨i, h, r⟩
    | _, _, _ => none
  | _ => none

/-- Decode one code-block record. -/
def codeBlockOfJson (j : Json) : Option CodeBlock :=
  match j with
  | .obj o =>
    match dictGet o "index" >>= asNum, dictGet o "type" >>= asStr,
        dictGet o "content" >>= asStr with
    | some i, some k, some c => some ⟨i, k, c⟩
    | _, _, _ => none
  | _ => none

/-- Decode the lists dict. -/
def listsOfJson (j : Json) : Option ListsData :=
  match j with
  | .obj o =>
    match dictGet o "ul" >>= asArr >>= decodeList decodeStrList,
        dictGet o "ol" >>= asArr >>= decodeList decodeStrList with
    | some u, some l => some ⟨u, l⟩
    | _, _ => none
  | _ => none

/-- Parse a serialized ScrapeResult back from the JSON document. -/
def resultOfJson (j : Json) : Option ScrapeResult :=
  match j with
  | .obj o =>
    match dictGet o "url" >>= asStr,
        dictGet o "metadata" >>= asObj >>= decodePairs asStr,
        dictGet o "headings" >>= asObj >>= decodePairs decodeStrList,
        dictGet o "paragraphs" >>= decodeStrList,
        dictGet o "links" >>= asArr >>= decodeList linkOfJson,
        dictGet o "images" >>= asArr >>= decodeList imageOfJson,
        dictGet o "tables" >>= asArr >>= decodeList tableOfJson,
        dictGet o "lists" >>= listsOfJson,
        dictGet o "code_blocks" >>= asArr >>= decodeList codeBlockOfJson,
        dictGet o "full_text" >>= asStr with
    | some u, some md, some hd, some pg, some lk, some im, some tb, some ls,
        some cb, some ft =>
      some ⟨u, md, hd, pg, lk, im, tb, ls, cb, ft⟩
    | _, _, _, _, _, _, _, _, _, _ => none
  | _ => none

/-! ## Console summary and `main` -/

/-- The `"="*60` separator bar of the summary. -/
def eqBar : String :=
  String.mk (List.replicate 60 '=')

/-- `sum(len(v) for v in data['headings'].values())` (line 258). -/
def headingsTotal (h : List (String × List String)) : Nat :=
  (h.map (fun p => p.2.length)).sum

/-- `WebScraper.print_summary` (lines 243-267) as the ordered list of
strings passed to `print`: the banner, the URL line, the title and
description lines only when the metadata dict is truthy (non-empty), then
the eight count lines and the closing bar. (The `if not data: return`
guard at line 245 is never taken for an assembled result dict, which
always has ten keys.) -/
def print_summary (data : ScrapeResult) : List String :=
  ["\n" ++ eqBar, "SCRAPING SUMMARY", eqBar, "\nURL: " ++ data.url]
    ++ (if data.metadata ≠ [] then
          ["\nTitle: " ++ dictGetD data.metadata "title" "N/A",
           "Description: " ++ dictGetD data.metadata "meta_description" "N/A"]
        else [])
    ++ ["\nHeadings found: " ++ toString (headingsTotal data.headings),
        "Paragraphs found: " ++ toString data.paragraphs.length,
        "Links found: " ++ toString data.links.length,
        "Images found: " ++ toString data.images.length,
        "Tables found: " ++ toString data.tables.length,
        "Code blocks found: " ++ toString data.code_blocks.length,
        "Lists found: " ++ toString (data.lists.ul.length + data.lists.ol.length),
        "Total text content: " ++ toString data.full_text.length ++ " characters",
        "\n" ++ eqBar]

/-- What one invocation of `main` (lines 270-288) does after the fetch:
the process exit code, the assembled result if any, the summary lines, and
the file write attempted (name and JSON document), `none` when no write
happens. -/
structure RunReport where
  exitCode : Nat
  result : Option ScrapeResult
  summary : List String
  written : Option (String × Json)

/-- `main` after argument parsing (lines 276-288): on a successful scrape,
print the summary and write the JSON file, exit 0; on a failed fetch,
`scrape_all` returns `None` before any extractor runs, nothing is printed
or written, exit 1. -/
def mainRun (url : String) (outputArg : Option String) (fetched : FetchOutcome) :
    RunReport :=
  match scrape_all url fetched with
  | some data =>
    { exitCode := 0
      result := some data
      summary := print_summary data
      written := some (outputFilename url outputArg, resultToJson data) }
  | none =>
    { exitCode := 1, result := none, summary := [], written := none }

/-! ## Spec-side definitions and concrete example inputs -/

/-- The normalization claim C4 describes, written from the spec's words for
comparison with the code's `normalizeText`: each line trimmed, blank lines
dropped, the remaining lines rejoined with a single newline separator, no
other transformation of line content. -/
def specLineNormalize (text : String) : String :=
  joinSep "\n" (((pySplit "\n" text).map pyStrip).filter (fun l => l ≠ ""))

/-- The normalization the code actually performs, written from the amended
claim's words: per line, trim it, split the trimmed line at each
double-space into chunks, trim the chunks, drop the blank ones; join every
surviving chunk across all lines with a single newline separator. -/
def specChunkNormalize (text : String) : String :=
  joinSep "\n"
    ((pySplit "\n" text).flatMap
      (fun line => ((pySplit "  " (pyStrip line)).map pyStrip).filter (fun c => c ≠ "")))

/-- The (key, value) pairs the metadata loop assigns, in document order:
one pair per meta element that resolves (truthy name-or-property and
truthy content). -/
def metaPairs (d : Doc) : List (String × String) :=
  (findAllDoc ["meta"] d).filterMap resolveMeta

/-- A table with a `thead` of two header cells and a `tbody` of three
2-cell rows: the concrete example of claim C2 / spec §8. -/
def tableExampleDoc : Doc :=
  [.elem "table" []
    [.elem "thead" []
      [.elem "tr" [] [.elem "th" [] [.text "h1"], .elem "th" [] [.text "h2"]]],
     .elem "tbody" []
      [.elem "tr" [] [.elem "td" [] [.text "r1c1"], .elem "td" [] [.text "r1c2"]],
       .elem "tr" [] [.elem "td" [] [.text "r2c1"], .elem "td" [] [.text "r2c2"]],
       .elem "tr" [] [.elem "td" [] [.text "r3c1"], .elem "td" [] [.text "r3c2"]]]]]

/-- `<meta name="description" content="A">` followed by
`<meta property="description" content="B">`: the concrete example of
claim C5 / spec §8. -/
def metaExampleDoc : Doc :=
  [.elem "head" []
    [.elem "meta" [("name", "description"), ("content", "A")] [],
     .elem "meta" [("property", "description"), ("content", "B")] []]]

/-- A paragraph whose content includes a script element: an input on which
the in-place script removal of full-text extraction is observable. -/
def scriptParaDoc : Doc :=
  [.elem "p" [] [.text "hello", .elem "script" [] [.text "bad()"]]]

/-- A document with no script or style element, for instantiating the
order-insensitivity statement. -/
def plainParaDoc : Doc :=
  [.elem "p" [] [.text "x"]]

/-- A single image element carrying no attributes at all. -/
def bareImgDoc : Doc :=
  [.elem "img" [] []]

/-- A document whose text contains a double-space inside one line. -/
def twoSpaceDoc : Doc :=
  [.elem "body" [] [.text "a  b"]]

/-- A meta element whose `name` attribute is present but empty, with
non-empty `property` and `content`. -/
def emptyNameMeta : Node :=
  .elem "meta" [("name", ""), ("property", "author"), ("content", "X")] []

/-- A ScrapeResult whose metadata mapping is empty. -/
def emptyMetaResult : ScrapeResult :=
  { url := "https://example.com"
    metadata := []
    headings := []
    paragraphs := []
    links := []
    images := []
    tables := []
    lists := ⟨[], []⟩
    code_blocks := []
    full_text := "" }

/-- A ScrapeResult with a non-empty metadata mapping (title and
description present). -/
def titledResult : ScrapeResult :=
  { url := "https://example.com"
    metadata := [("title", "T"), ("meta_description", "D")]
    headings := [("h1", ["a", "b"])]
    paragraphs := ["p1"]
    links := []
    images := []
    tables := []
    lists := ⟨[["i"]], []⟩
    code_blocks := []
    full_text := "abc" }

mutual

/-- Decidable equality of nodes (the derive handler does not cover the
nested `List Node` argument, so it is spelt out). -/
def nodeDecEq (a b : Node) : Decidable (a = b) :=
  match a, b with
  | .text s, .text t =>
    if h : s = t then .isTrue (h ▸ rfl)
    else .isFalse (fun hh => h (Node.text.inj hh))
  | .text _, .elem _ _ _ => .isFalse Node.noConfusion
  | .elem _ _ _, .text _ => .isFalse Node.noConfusion
  | .elem n1 a1 c1, .elem n2 a2 c2 =>
    if h1 : n1 = n2 then
      if h2 : a1 = a2 then
        match nodesDecEq c1 c2 with
        | .isTrue h3 => .isTrue (by rw [h1, h2, h3])
        | .isFalse h3 => .isFalse (fun hh => h3 (Node.elem.inj hh).2.2)
      else .isFalse (fun hh => h2 (Node.elem.inj hh).2.1)
    else .isFalse (fun hh => h1 (Node.elem.inj hh).1)

/-- Decidable equality of node lists. -/
def nodesDecEq (a b : List Node) : Decidable (a = b) :=
  match a, b with
  | [], [] => .isTrue rfl
  | [], _ :: _ => .isFalse List.noConfusion
  | _ :: _, [] => .isFalse List.noConfusion
  | x :: xs, y :: ys =>
    match nodeDecEq x y, nodesDecEq xs ys with
    | .isTrue h1, .isTrue h2 => .isTrue (by rw [h1, h2])
    | .isFalse h1, _ => .isFalse (fun hh => h1 (List.cons.inj hh).1)
    | _, .isFalse h2 => .isFalse (fun hh => h2 (List.cons.inj hh).2)

end

instance : DecidableEq Node := nodeDecEq

/-! ## Helper lemmas -/

mutual

/-- A subtree without script/style elements survives `decompose` intact. -/
theorem stripNode_eq_self (n : Node) (h : hasScriptStyle n = false) :
    stripNode n = some n :=
  match n with
  | .text s => rfl
  | .elem name attrs children => by
    unfold hasScriptStyle at h
    simp only [Bool.or_eq_false_iff] at h
    unfold stripNode
    rw [h.1.1, h.1.2, stripNodes_eq_self children h.2]
    rfl

/-- Sibling subtrees without script/style elements survive intact. -/
theorem stripNodes_eq_self (l : List Node) (h : hasScriptStyleList l = false) :
    stripNodes l = l :=
  match l with
  | [] => rfl
  | n :: rest => by
    unfold hasScriptStyleList at h
    simp only [Bool.or_eq_false_iff] at h
    unfold stripNodes
    rw [stripNode_eq_self n h.1, stripNodes_eq_self rest h.2]

end

/-- Looking up the key just assigned yields the assigned value. -/
theorem dictGet_dictSet_self {α : Type} (m : List (String × α)) (k : String) (v : α) :
    dictGet (dictSet m k v) k = some v := by
  induction m with
  | nil => simp [dictSet, dictGet]
  | cons p rest ih =>
    by_cases h : p.1 = k
    · simp [dictSet, dictGet, h]
    · cases p with
      | mk k' v' => simp only at h; simp [dictSet, dictGet, h, ih]

/-- Assigning one key leaves every other key's lookup unchanged. -/
theorem dictGet_dictSet_ne {α : Type} (m : List (String × α)) (k k' : String) (v : α)
    (h : k' ≠ k) : dictGet (dictSet m k' v) k = dictGet m k := by
  induction m with
  | nil => simp [dictSet, dictGet, h]
  | cons p rest ih =>
    by_cases hp : p.1 = k'
    · cases p with
      | mk a b =>
        simp only at hp
        subst hp
        simp [dictSet, dictGet, h]
    · cases p with
      | mk a b =>
        simp only at hp
        simp [dictSet, dictGet, hp]
        by_cases hk : a = k <;> simp [hk, ih]

/-- Folding dict assignments: the lookup of `k` is the value of the last
assigned pair with key `k`, or the initial lookup when there is none. -/
theorem dictGet_foldl_dictSet {α : Type} (ps : List (String × α))
    (init : List (String × α)) (k : String) :
    dictGet (ps.foldl (fun acc p => dictSet acc p.1 p.2) init) k =
      match (ps.filter (fun p => p.1 = k)).getLast? with
      | some p => some p.2
      | none => dictGet init k := by
  induction ps using List.reverseRecOn generalizing init with
  | nil => simp
  | append_singleton ps p ih =>
    rw [List.foldl_append, List.foldl_cons, List.foldl_nil, List.filter_append]
    by_cases h : p.1 = k
    · have hf : List.filter (fun q => decide (q.1 = k)) [p] = [p] := by simp [h]
      rw [hf, List.getLast?_concat]
      show dictGet (dictSet _ p.1 p.2) k = some p.2
      rw [h]
      exact dictGet_dictSet_self _ _ _
    · have hf : List.filter (fun q => decide (q.1 = k)) [p] = [] := by simp [h]
      rw [hf, List.append_nil, dictGet_dictSet_ne _ k p.1 p.2 h, ih]

/-- The metadata loop, folded over the resolved pairs only: skipping the
meta elements that do not resolve commutes with filtering them out first. -/
theorem extract_metadata_eq_foldl (d : Doc) :
    extract_metadata d =
      (metaPairs d).foldl (fun acc p => dictSet acc p.1 p.2)
        (match findDoc "title" d with
         | some t => dictSet [] "title" (getTextStrip t)
         | none => []) := by
  unfold extract_metadata metaPairs
  generalize (match findDoc "title" d with
    | some t => dictSet ([] : List (String × String)) "title" (getTextStrip t)
    | none => []) = init
  induction (findAllDoc ["meta"] d) generalizing init with
  | nil => rfl
  | cons m rest ih =>
    rw [List.foldl_cons, List.filterMap_cons]
    cases hm : resolveMeta m with
    | none => simp only [hm]; exact ih _
    | some p => simp only [hm, List.foldl_cons]; exact ih _

/-- Lookup distributes over appended association lists, first list first. -/
theorem dictGet_append {α : Type} (a b : List (String × α)) (k : String) :
    dictGet (a ++ b) k =
      match dictGet a k with
      | some v => some v
      | none => dictGet b k := by
  induction a with
  | nil => simp [dictGet]
  | cons p rest ih =>
    by_cases h : p.1 = k
    · cases p; simp only at h; simp [dictGet, h]
    · cases p; simp only at h; simp [dictGet, h, ih]

/-- The dict entry one heading level contributes, looked up at any key. -/
theorem dictGet_headingEntry (d : Doc) (tag k : String) :
    dictGet (headingEntry d tag) k =
      if tag = k then
        (if findAllDoc [tag] d = [] then none
         else some ((findAllDoc [tag] d).map getTextStrip))
      else none := by
  unfold headingEntry
  by_cases hk : tag = k
  · subst hk
    by_cases he : findAllDoc [tag] d = []
    · simp [he, dictGet]
    · have hm : ¬ ((findAllDoc [tag] d).map getTextStrip = []) := by
        simpa [List.map_eq_nil_iff] using he
      simp [he, hm, dictGet]
  · by_cases he : findAllDoc [tag] d = []
    · simp [he, dictGet]
    · have hm : ¬ ((findAllDoc [tag] d).map getTextStrip = []) := by
        simpa [List.map_eq_nil_iff] using he
      simp [he, hm, dictGet, hk]

/-- `urljoin` of any base with the empty URL returns the base unchanged
(CPython's early return; when the base itself is empty both are `""`). -/
theorem urljoin_empty (base : String) : urljoin base "" = base := by
  by_cases hb : base = "" <;> simp [urljoin, hb]

/-- Decoding an encoded list element-wise succeeds and is the identity. -/
theorem decodeList_map {α : Type} (enc : α → Json) (dec : Json → Option α)
    (h : ∀ a, dec (enc a) = some a) (l : List α) :
    decodeList dec (l.map enc) = some l := by
  induction l with
  | nil => rfl
  | cons a t ih => simp [decodeList, h, ih]

/-- Decoding encoded object members value-wise succeeds and is the identity. -/
theorem decodePairs_map {α : Type} (enc : α → Json) (dec : Json → Option α)
    (h : ∀ a, dec (enc a) = some a) (l : List (String × α)) :
    decodePairs dec (l.map (fun p => (p.1, enc p.2))) = some l := by
  induction l with
  | nil => rfl
  | cons p t ih => cases p; simp [decodePairs, h, ih]

/-- String arrays decode back to themselves. -/
theorem decodeStrList_roundtrip (l : List String) :
    decodeStrList (strListToJson l) = some l := by
  simp [decodeStrList, strListToJson, asArr, decodeList_map Json.str asStr (fun a => rfl)]

/-- Link records decode back to themselves. -/
theorem linkOfJson_roundtrip (l : Link) : linkOfJson (linkToJson l) = some l := by
  simp [linkOfJson, linkToJson, dictGet, asStr]

/-- Image records decode back to themselves. -/
theorem imageOfJson_roundtrip (i : Image) : imageOfJson (imageToJson i) = some i := by
  simp [imageOfJson, imageToJson, dictGet, asStr]

/-- Table records decode back to themselves. -/
theorem tableOfJson_roundtrip (t : TableData) : tableOfJson (tableToJson t) = some t := by
  simp [tableOfJson, tableToJson, dictGet, asStr, asNum, asArr,
    decodeStrList_roundtrip, decodeList_map strListToJson decodeStrList decodeStrList_roundtrip]

/-- Code-block records decode back to themselves. -/
theorem codeBlockOfJson_roundtrip (c : CodeBlock) :
    codeBlockOfJson (codeBlockToJson c) = some c := by
  simp [codeBlockOfJson, codeBlockToJson, dictGet, asStr, asNum]

/-- The lists dict decodes back to itself. -/
theorem listsOfJson_roundtrip (l : ListsData) : listsOfJson (listsToJson l) = some l := by
  simp [listsOfJson, listsToJson, dictGet, asArr,
    decodeList_map strListToJson decodeStrList decodeStrList_roundtrip]

/-! ## The claims -/

/-- C2: every table yields a record of index, headers and rows, the index
being the 0-based document-order position of the table (the source
serializes it under the key `table_index`); and the spec's concrete
example — a `thead` of 2 header cells, a `tbody` of 3 rows of 2 cells —
produces headers `[h1, h2]`, the three 2-cell rows, and index 0. -/
theorem c2_tables_indexed_records :
    (∀ d : Doc, (extract_tables d).map TableData.table_index =
      List.range (extract_tables d).length) ∧
    extract_tables tableExampleDoc =
      [⟨0, ["h1", "h2"], [["r1c1", "r1c2"], ["r2c1", "r2c2"], ["r3c1", "r3c2"]]⟩] := by
  constructor
  · intro d
    have hl : (extract_tables d).length = (findAllDoc ["table"] d).length := by
      simp [extract_tables, List.enum_length]
    rw [hl]
    unfold extract_tables
    rw [List.map_map]
    have hc : (TableData.table_index ∘ tableOf) = Prod.fst := by
      funext p
      rfl
    rw [hc, List.enum_map_fst]
  · rfl

/-- C3 counterexample: an image element with no attributes at all, on page
`https://example.com`, yields exactly one record, but its `src` field is
`urljoin(url, '')` — the page URL — not the empty string the claim
states. -/
theorem c3_counterexample_src_not_empty :
    extract_images "https://example.com" bareImgDoc =
      [⟨"", "https://example.com", ""⟩] ∧
    (extract_images "https://example.com" bareImgDoc).map Image.src ≠ [""] := by
  constructor
  · rfl
  · decide

/-- C3 (amended): every image element yields exactly one Image record;
`alt` and `title` default to the empty string when the attribute is
absent; when the `src` attribute is absent the record's `src` field is the
URL-join of the page URL with the empty string, i.e. the page URL itself,
not the empty string. -/
theorem c3_images_one_record_defaults (pageUrl : String) (d : Doc) (img : Node) :
    (extract_images pageUrl d).length = (findAllDoc ["img"] d).length ∧
    (getAttr img "alt" = none → (imageOf pageUrl img).alt = "") ∧
    (getAttr img "title" = none → (imageOf pageUrl img).title = "") ∧
    (getAttr img "src" = none → (imageOf pageUrl img).src = pageUrl) := by
  refine ⟨by simp [extract_images], ?_, ?_, ?_⟩
  · intro h; simp [imageOf, h]
  · intro h; simp [imageOf, h]
  · intro h; simp [imageOf, h, urljoin_empty]

/-- C3 witness: the attribute-less image element on `https://example.com`. -/
theorem c3_images_one_record_defaults_witness :
    getAttr (Node.elem "img" [] []) "src" = none ∧
    (imageOf "https://example.com" (Node.elem "img" [] [])).src = "https://example.com" :=
  ⟨rfl, (c3_images_one_record_defaults "https://example.com" []
    (Node.elem "img" [] [])).2.2.2 rfl⟩

/-- C7: when the fetch step fails for any reason (timeout, transport
error, non-success status), `scrape_all` returns `None` before any
extractor runs, and `main` reports failure with exit code 1: no summary is
printed, no result exists, and no output file write is attempted. -/
theorem c7_fetch_failure_aborts (url : String) (outputArg : Option String)
    (e : FetchError) :
    scrape_all url (FetchOutcome.failure e) = none ∧
    mainRun url outputArg (FetchOutcome.failure e) =
      { exitCode := 1, result := none, summary := [], written := none } :=
  ⟨rfl, rfl⟩

/-- C10: a meta element whose `name` attribute is present but empty, with
non-empty `property` and `content`, resolves its metadata key from
`property`: the `or` fallback is by truthiness, so an empty-string `name`
acts exactly like an absent one. -/
theorem c10_empty_name_falls_back_to_property (m : Node) (p c : String)
    (hname : getAttr m "name" = some "")
    (hprop : getAttr m "property" = some p) (hp : p ≠ "")
    (hcontent : getAttr m "content" = some c) (hc : c ≠ "") :
    resolveMeta m = some ("meta_" ++ p, c) := by
  simp [resolveMeta, hname, hprop, hcontent, pyOrStr, pyTruthy, hp, hc]

/-- C10 witness: `<meta name="" property="author" content="X">` resolves
to key `meta_author` with value `X`. -/
theorem c10_empty_name_falls_back_to_property_witness :
    resolveMeta emptyNameMeta = some ("meta_author", "X") :=
  c10_empty_name_falls_back_to_property emptyNameMeta "author" "X" rfl rfl
    (by decide) rfl (by decide)

/-- C1 counterexample: on a paragraph containing a script element, running
the FullText extractor first mutates the shared tree (`decompose` of the
script), and the Paragraphs extractor afterwards returns a different
output than on the fresh tree — extractor order is observable. -/
theorem c1_counterexample_order_observable :
    extract_paragraphs ((extract_text_content scriptParaDoc).2) = ["hello"] ∧
    extract_paragraphs scriptParaDoc = ["hellobad()"] ∧
    extract_paragraphs ((extract_text_content scriptParaDoc).2) ≠
      extract_paragraphs scriptParaDoc :=
  ⟨by decide, by decide, by decide⟩

/-- C1 (amended): the FullText extractor mutates the shared tree in place,
so an extractor that runs after it can observe the script/style removal;
but whenever the document contains no script or style element (and in
`scrape_all`'s order, where FullText runs last), the tree FullText leaves
behind is the fresh tree, and every other extractor's output after
FullText equals its output on the fresh tree. -/
theorem c1_no_script_style_order_insensitive (url : String) (d : Doc)
    (h : hasScriptStyleList d = false) :
    (extract_text_content d).2 = d ∧
    extract_metadata ((extract_text_content d).2) = extract_metadata d ∧
    extract_headings ((extract_text_content d).2) = extract_headings d ∧
    extract_paragraphs ((extract_text_content d).2) = extract_paragraphs d ∧
    extract_links url ((extract_text_content d).2) = extract_links url d ∧
    extract_images url ((extract_text_content d).2) = extract_images url d ∧
    extract_tables ((extract_text_content d).2) = extract_tables d ∧
    extract_lists ((extract_text_content d).2) = extract_lists d ∧
    extract_code_blocks ((extract_text_content d).2) = extract_code_blocks d := by
  have hd : (extract_text_content d).2 = d := stripNodes_eq_self d h
  exact ⟨hd, by rw [hd], by rw [hd], by rw [hd], by rw [hd], by rw [hd],
    by rw [hd], by rw [hd], by rw [hd]⟩

/-- C1 witness: a script-free paragraph document. -/
theorem c1_no_script_style_order_insensitive_witness :
    hasScriptStyleList plainParaDoc = false ∧
    (extract_text_content plainParaDoc).2 = plainParaDoc :=
  ⟨by decide, (c1_no_script_style_order_insensitive "https://example.com"
    plainParaDoc (by decide)).1⟩

/-- C4 counterexample: a document whose text holds a double-space inside
one line. The code splits that line at the double-space into two output
lines, while the claimed trim-and-rejoin normalization keeps the line
whole, so the claimed equality fails. -/
theorem c4_counterexample_double_space_split :
    (extract_text_content twoSpaceDoc).1 = "a\nb" ∧
    specLineNormalize (getTextDoc (stripScriptStyleDoc twoSpaceDoc)) = "a  b" ∧
    (extract_text_content twoSpaceDoc).1 ≠
      specLineNormalize (getTextDoc (stripScriptStyleDoc twoSpaceDoc)) :=
  ⟨by decide, by decide, by decide⟩

/-- The clean-up loop of `extract_text_content` written two ways: filtering
the blank chunks after flattening (the code's order) equals splitting,
trimming and filtering per line and then flattening. -/
theorem normalizeText_eq_specChunkNormalize (s : String) :
    normalizeText s = specChunkNormalize s := by
  simp only [normalizeText, specChunkNormalize]
  rw [List.flatMap_map, List.filter_flatMap]

/-- C4 (amended): the FullText output is the whole-document text with
script/style subtrees removed beforehand, normalized by: trim each line,
split each trimmed line at every double-space into chunks, trim the
chunks, drop blank chunks, and rejoin every surviving chunk with a single
newline separator — the double-space chunk split being the transformation
the original claim excluded. -/
theorem c4_fulltext_normalization (d : Doc) :
    (extract_text_content d).1 = specChunkNormalize (getTextDoc (stripScriptStyleDoc d)) := by
  show normalizeText (getTextDoc (stripScriptStyleDoc d)) = _
  exact normalizeText_eq_specChunkNormalize _

/-- C5: whenever at least one meta element of the document resolves to the
key `k`, the metadata value at `k` is the content of the last such element
in document order (dict assignment overwrites: last one wins). -/
theorem c5_metadata_last_wins (d : Doc) (k : String)
    (hne : (metaPairs d).filter (fun p => p.1 = k) ≠ []) :
    dictGet (extract_metadata d) k =
      ((metaPairs d).filter (fun p => p.1 = k)).getLast?.map Prod.snd := by
  rw [extract_metadata_eq_foldl, dictGet_foldl_dictSet]
  cases hl : ((metaPairs d).filter (fun p => p.1 = k)).getLast? with
  | none => exact absurd (List.getLast?_eq_none_iff.mp hl) hne
  | some p => simp

/-- C5 witness: `name="description" content="A"` then
`property="description" content="B"` resolves `meta_description` to `B`. -/
theorem c5_metadata_last_wins_witness :
    dictGet (extract_metadata metaExampleDoc) "meta_description" = some "B" := by
  have h := c5_metadata_last_wins metaExampleDoc "meta_description" (by decide)
  rw [h]
  decide

/-- C6 counterexample: for a ScrapeResult whose metadata mapping is empty,
the summary contains neither a Title nor a Description line (the code
guards both behind `if data['metadata']:`), so the claim that those lines
print for every ScrapeResult is false. -/
theorem c6_counterexample_no_title_line :
    ("\nTitle: N/A" ∉ print_summary emptyMetaResult) ∧
    ("Description: N/A" ∉ print_summary emptyMetaResult) :=
  ⟨by decide, by decide⟩

/-- C6 (amended): the summary always prints the URL line and the count
lines (headings summed over all levels, paragraphs, links, images, tables,
code blocks, ordered+unordered list count, full-text character length);
the title and description lines — metadata `title` and `meta_description`,
defaulting to `N/A` — are printed exactly when the metadata mapping is
non-empty, not for every ScrapeResult. -/
theorem c6_summary_lines (r : ScrapeResult) :
    (r.metadata = [] →
      print_summary r =
        ["\n" ++ eqBar, "SCRAPING SUMMARY", eqBar, "\nURL: " ++ r.url,
         "\nHeadings found: " ++ toString (headingsTotal r.headings),
         "Paragraphs found: " ++ toString r.paragraphs.length,
         "Links found: " ++ toString r.links.length,
         "Images found: " ++ toString r.images.length,
         "Tables found: " ++ toString r.tables.length,
         "Code blocks found: " ++ toString r.code_blocks.length,
         "Lists found: " ++ toString (r.lists.ul.length + r.lists.ol.length),
         "Total text content: " ++ toString r.full_text.length ++ " characters",
         "\n" ++ eqBar]) ∧
    (r.metadata ≠ [] →
      print_summary r =
        ["\n" ++ eqBar, "SCRAPING SUMMARY", eqBar, "\nURL: " ++ r.url,
         "\nTitle: " ++ dictGetD r.metadata "title" "N/A",
         "Description: " ++ dictGetD r.metadata "meta_description" "N/A",
         "\nHeadings found: " ++ toString (headingsTotal r.headings),
         "Paragraphs found: " ++ toString r.paragraphs.length,
         "Links found: " ++ toString r.links.length,
         "Images found: " ++ toString r.images.length,
         "Tables found: " ++ toString r.tables.length,
         "Code blocks found: " ++ toString r.code_blocks.length,
         "Lists found: " ++ toString (r.lists.ul.length + r.lists.ol.length),
         "Total text content: " ++ toString r.full_text.length ++ " characters",
         "\n" ++ eqBar]) := by
  constructor
  · intro h
    simp [print_summary, h]
  · intro h
    simp [print_summary, h]

/-- C6 witness: a ScrapeResult with title `T` and description `D`. -/
theorem c6_summary_lines_witness :
    print_summary titledResult =
      ["\n" ++ eqBar, "SCRAPING SUMMARY", eqBar, "\nURL: https://example.com",
       "\nTitle: T", "Description: D", "\nHeadings found: 2",
       "Paragraphs found: 1", "Links found: 0", "Images found: 0",
       "Tables found: 0", "Code blocks found: 0", "Lists found: 1",
       "Total text content: 3 characters", "\n" ++ eqBar] := by
  have h := (c6_summary_lines titledResult).2 (by decide)
  exact h.trans (by decide)

/-- C8: for each level tag h1..h6, the headings mapping has an entry
exactly when the document has at least one heading of that level — a
level with zero headings is absent, not mapped to an empty sequence — and
a present entry holds the stripped texts of that level's headings in
document order. -/
theorem c8_headings_present_iff_nonempty (d : Doc) :
    (dictGet (extract_headings d) "h1" =
      (if findAllDoc ["h1"] d = [] then none
       else some ((findAllDoc ["h1"] d).map getTextStrip))) ∧
    (dictGet (extract_headings d) "h2" =
      (if findAllDoc ["h2"] d = [] then none
       else some ((findAllDoc ["h2"] d).map getTextStrip))) ∧
    (dictGet (extract_headings d) "h3" =
      (if findAllDoc ["h3"] d = [] then none
       else some ((findAllDoc ["h3"] d).map getTextStrip))) ∧
    (dictGet (extract_headings d) "h4" =
      (if findAllDoc ["h4"] d = [] then none
       else some ((findAllDoc ["h4"] d).map getTextStrip))) ∧
    (dictGet (extract_headings d) "h5" =
      (if findAllDoc ["h5"] d = [] then none
       else some ((findAllDoc ["h5"] d).map getTextStrip))) ∧
    (dictGet (extract_headings d) "h6" =
      (if findAllDoc ["h6"] d = [] then none
       else some ((findAllDoc ["h6"] d).map getTextStrip))) := by
  refine ⟨?_, ?_, ?_, ?_, ?_, ?_⟩
  · simp only [extract_headings, dictGet_append, dictGet_headingEntry]
    by_cases hA : findAllDoc ["h1"] d = [] <;> simp [hA]
  · simp only [extract_headings, dictGet_append, dictGet_headingEntry]
    by_cases hA : findAllDoc ["h2"] d = [] <;> simp [hA]
  · simp only [extract_headings, dictGet_append, dictGet_headingEntry]
    by_cases hA : findAllDoc ["h3"] d = [] <;> simp [hA]
  · simp only [extract_headings, dictGet_append, dictGet_headingEntry]
    by_cases hA : findAllDoc ["h4"] d = [] <;> simp [hA]
  · simp only [extract_headings, dictGet_append, dictGet_headingEntry]
    by_cases hA : findAllDoc ["h5"] d = [] <;> simp [hA]
  · simp only [extract_headings, dictGet_append, dictGet_headingEntry]
    by_cases hA : findAllDoc ["h6"] d = [] <;> simp [hA]

/-- C9: serializing a ScrapeResult to the JSON output document and parsing
it back yields a structurally equal record — all ten top-level fields, the
same container nesting, the same order in every sequence. -/
theorem c9_serialize_roundtrip (r : ScrapeResult) :
    resultOfJson (resultToJson r) = some r := by
  simp [resultOfJson, resultToJson, dictGet, asStr, asObj, asArr,
    listsOfJson_roundtrip, decodeStrList_roundtrip,
    decodePairs_map Json.str asStr (fun a => rfl),
    decodePairs_map strListToJson decodeStrList decodeStrList_roundtrip,
    decodeList_map linkToJson linkOfJson linkOfJson_roundtrip,
    decodeList_map imageToJson imageOfJson imageOfJson_roundtrip,
    decodeList_map tableToJson tableOfJson tableOfJson_roundtrip,
    decodeList_map codeBlockToJson codeBlockOfJson codeBlockOfJson_roundtrip]
